import Mathlib

/-!
Shallow embedding of `src/tasks/osbuilder/build_image.py` (Minoca OS image
build pipeline) and proofs about the claims of its specification.

The script is an effectful Python program.  We embed it as a function from a
build recipe, a working directory and a command-success oracle to a pair of
an outcome (normal return value, `exit(1)`, or an uncaught exception) and a
trace of the external effects the script performs, in order.  External
commands (`os.system` via `run`) succeed or fail according to the oracle;
plain filesystem calls (`os.mkdir`, `open`/`write`, ...) are recorded as
effects and assumed to succeed, matching the script which has no handlers
for them.
-/

namespace OsBuilder

/-! ### Characters used to build shell command strings

The source wraps arguments in single quotes (`"cp -pv -- '%s' '%s'"`); a
single-quote character is written via its code point throughout this file. -/

/-- Single-quote character (code point 39). -/
def sqc : Char := Char.ofNat 39

/-- Double-quote character (code point 34). -/
def dqc : Char := Char.ofNat 34

/-- Single-quote as a one-character string. -/
def sq : String := String.mk [sqc]

/-- Wrap a string in single quotes: the `".. '%s' .."` pattern of the source. -/
def sq1 (s : String) : String := sq ++ s ++ sq

/-! ### Model of Python `base64.b64decode`

`b64decode` ignores characters outside the base64 alphabet, stops at a
padding `=` once at least two data characters of the current quad have been
seen, and raises (here: returns `none`) when the number of data characters
is incompatible with the padding. -/

/-- Value of a base64 alphabet character, `none` for non-alphabet characters. -/
def b64CharVal (c : Char) : Option Nat :=
  if 65 ≤ c.toNat ∧ c.toNat ≤ 90 then some (c.toNat - 65)
  else if 97 ≤ c.toNat ∧ c.toNat ≤ 122 then some (c.toNat - 97 + 26)
  else if 48 ≤ c.toNat ∧ c.toNat ≤ 57 then some (c.toNat - 48 + 52)
  else if c = '+' then some 62
  else if c = '/' then some 63
  else none

/-- Scan the input, collecting 6-bit values; the second argument is the
number of values collected so far modulo 4.  Returns the collected values
and whether the data was terminated by a valid padding character. -/
def b64scan : List Char → Nat → List Nat × Bool
  | [], _ => ([], false)
  | c :: rest, quadPos =>
    if c = '=' then
      if 2 ≤ quadPos then ([], true)
      else b64scan rest quadPos
    else
      match b64CharVal c with
      | some v =>
        let r := b64scan rest ((quadPos + 1) % 4)
        (v :: r.1, r.2)
      | none => b64scan rest quadPos

/-- Turn a list of 6-bit values into bytes; a trailing single value is a
padding error. -/
def b64vals2bytes : List Nat → Option (List Nat)
  | [] => some []
  | [_] => none
  | [a, b] => some [a * 4 + b / 16]
  | [a, b, c] => some [a * 4 + b / 16, (b % 16) * 16 + c / 4]
  | a :: b :: c :: d :: rest =>
    match b64vals2bytes rest with
    | some tail =>
      some ((a * 4 + b / 16) :: ((b % 16) * 16 + c / 4) :: ((c % 4) * 64 + d) :: tail)
    | none => none

/-- Model of `base64.b64decode`: `none` means the call raises. -/
def b64decode (s : String) : Option (List Nat) :=
  let r := b64scan s.data 0
  if r.2 ∨ r.1.length % 4 = 0 then b64vals2bytes r.1 else none

/-- Bytes back to a string (Python 2 `str` is a byte string). -/
def bytesToStr (bs : List Nat) : String := String.mk (bs.map (fun n => Char.ofNat n))

/-! ### Model of `shlex.quote` / `pipes.quote` -/

/-- Characters the quoting function leaves alone: ASCII letters, digits,
and the punctuation `@ % _ - + = : , . /` (the complement of the regex of
unsafe characters in `shlex.quote`). -/
def isShellSafe (c : Char) : Bool :=
  c.isAlpha || c.isDigit ||
    ['@', '%', '_', '-', '+', '=', ':', ',', '.', '/'].contains c

/-- The `s.replace` step of `quote`: each single quote becomes the
five-character sequence quote, double-quote, quote, double-quote, quote. -/
def escQuote : List Char → List Char
  | [] => []
  | c :: rest =>
    if c = sqc then sqc :: dqc :: sqc :: dqc :: sqc :: escQuote rest
    else c :: escQuote rest

/-- Model of `shlex.quote` (equivalently `pipes.quote`), as imported at the
top of the source. -/
def quote (s : String) : String :=
  if s.data = [] then sq ++ sq
  else if s.data.all isShellSafe then s
  else sq ++ String.mk (escQuote s.data) ++ sq

/-! ### Model of `os.path.join` and `os.path.normpath` (POSIX flavor) -/

/-- Join of two path components, following `posixpath.join`. -/
def pathJoin (a b : String) : String :=
  if b.data.head? = some '/' then b
  else if a.data = [] ∨ a.data.getLast? = some '/' then a ++ b
  else a ++ "/" ++ b

/-- Split a character list on slashes, as `path.split("/")` does. -/
def splitSlash (acc : List Char) : List Char → List String
  | [] => [String.mk acc.reverse]
  | c :: rest =>
    if c = '/' then String.mk acc.reverse :: splitSlash [] rest
    else splitSlash (c :: acc) rest

/-- The component-normalisation loop of `posixpath.normpath`; the second
argument accumulates kept components in reverse order. -/
def normComps (initialSlashes : Nat) : List String → List String → List String
  | newComps, [] => newComps.reverse
  | newComps, comp :: rest =>
    if comp = "" ∨ comp = "." then normComps initialSlashes newComps rest
    else if comp ≠ ".." ∨ (initialSlashes = 0 ∧ newComps = []) ∨
            newComps.head? = some ".." then
      normComps initialSlashes (comp :: newComps) rest
    else
      match newComps with
      | [] => normComps initialSlashes [] rest
      | _ :: t => normComps initialSlashes t rest

/-- Model of `posixpath.normpath`. -/
def normpath (path : String) : String :=
  if path.data = [] then "."
  else
    let initialSlashes : Nat :=
      if path.data.head? = some '/' then
        if path.data.take 2 = ['/', '/'] ∧ ¬ path.data.take 3 = ['/', '/', '/'] then 2
        else 1
      else 0
    let comps := splitSlash [] path.data
    let newComps := normComps initialSlashes [] comps
    let p := String.mk (List.replicate initialSlashes '/') ++
      String.intercalate "/" newComps
    if p.data = [] then "." else p

/-! ### Data model

`BuildRecipe` and `UserSpec` mirror the fields the script reads from
`build_request.json`. -/

/-- A user entry of `user_list` (`user['username']`, `user['gecos']`,
`user['enable_password']`, `user['password']`, `user['ssh_authorized_keys']`);
the three text fields hold base64-encoded content. -/
structure UserSpec where
  username : String
  gecos : String
  enable_password : Bool
  password : String
  ssh_authorized_keys : String
deriving Repr, DecidableEq

instance : Inhabited UserSpec := ⟨⟨"", "", false, "", ""⟩⟩

/-- The parsed build request (`recipe['platform']`, `recipe['package_list']`,
`recipe['user_list']`, `recipe['image_size']`). -/
structure BuildRecipe where
  platform : String
  package_list : List String
  user_list : List UserSpec
  image_size : Nat
deriving Repr, DecidableEq

/-- The data the platform dispatch of `main` computes: `arch`,
`image_script` and `image`. -/
structure PlatformProfile where
  arch : String
  image_script : String
  image : String
deriving Repr, DecidableEq

/-! ### Effects and outcomes -/

/-- One observable external action of the script, in program order. -/
inductive Effect where
  | readFile (path : String)
  | rmtree (path : String)
  | mkdir (path : String)
  | makedirs (path : String)
  | chdir (dir : String)
  | system (cmd : String)
  | setEnv (name value : String)
  | writeFile (path content : String)
  | chmod (path : String) (mode : Nat)
  | chown (path : String) (uid gid : Nat)
  | print (msg : String)
deriving Repr, DecidableEq

/-- How a run can end other than by `main` returning a value:
`exited c` is the `exit(c)` call inside `run`, `raised` an uncaught Python
exception (here: a base64 decoding error). -/
inductive Outcome where
  | exited (code : Nat)
  | raised
deriving Repr, DecidableEq

/-- Decidable equality of results, for evaluating runs on concrete inputs. -/
instance exceptDecEq {ε α : Type} [DecidableEq ε] [DecidableEq α] :
    DecidableEq (Except ε α)
  | .ok a, .ok b =>
    if h : a = b then .isTrue (by rw [h])
    else .isFalse (by intro hh; injection hh; contradiction)
  | .ok _, .error _ => .isFalse (by intro h; exact Except.noConfusion h)
  | .error _, .ok _ => .isFalse (by intro h; exact Except.noConfusion h)
  | .error e, .error f =>
    if h : e = f then .isTrue (by rw [h])
    else .isFalse (by intro hh; injection hh; contradiction)

/-- The denotation of a program fragment: its result (or early termination)
together with the list of effects it performed, in order. -/
def BuildM (α : Type) : Type := Except Outcome α × List Effect

/-- Return a value, no effects. -/
def pureB {α : Type} (a : α) : BuildM α := (.ok a, [])

/-- Sequencing: on success the second fragment runs and its effects follow
the first fragment's; on early termination the rest of the program is
skipped. -/
def bindB {α β : Type} (m : BuildM α) (f : α → BuildM β) : BuildM β :=
  match m with
  | (.ok a, es) => ((f a).1, es ++ (f a).2)
  | (.error o, es) => (.error o, es)

instance : Monad BuildM where
  pure := pureB
  bind := bindB

/-- Record one effect. -/
def emit (e : Effect) : BuildM Unit := (.ok (), [e])

/-- Terminate the run early. -/
def throwB {α : Type} (o : Outcome) : BuildM α := (.error o, [])

/-- The `run(working_dir, command)` helper of the source: `os.chdir`, then
`os.system`; a command that does not exit with status 0 prints a diagnostic
and calls `exit(1)`.  `cmdOk dir cmd` is the oracle saying whether the
command, run in that directory, exits with status 0.  (The source formats
the raw wait status into the message in hex; the numeric rendering is
elided here.) -/
def runC (cmdOk : String → String → Bool) (working_dir command : String) : BuildM Unit :=
  if cmdOk working_dir command then
    (.ok (), [.chdir working_dir, .system command])
  else
    (.error (.exited 1),
     [.chdir working_dir, .system command,
      .print ("Command " ++ command ++ " returned with nonzero status")])

/-- `base64.b64decode` as a program step: a decoding error is an uncaught
exception ending the run. -/
def b64decodeM (s : String) : BuildM (List Nat) :=
  match b64decode s with
  | some bs => pureB bs
  | none => throwB .raised

/-! ### The pipeline (`main` of `build_image.py`)

`main` is one long function in the source; it is presented here as a
sequence of named stages in source order, each annotated with the source
lines it embeds.  `cwd` is the value of `os.getcwd()`. -/

/-- `SYSTEM_BIN` of the source. -/
def SYSTEM_BIN : List String :=
  ["debug", "efiboot", "mount", "umount", "msetup", "profile", "swiss", "vmstat"]

/-- `SYSTEM_LIB` of the source. -/
def SYSTEM_LIB : List String :=
  ["libc.so.1", "libminocaos.so.1", "libcrypt.so.1"]

/-- `os.path.join(cwd, "..", "..", "tasks", "images")` (line 74). -/
def imagescriptdir (cwd : String) : String :=
  pathJoin (pathJoin (pathJoin (pathJoin cwd "..") "..") "tasks") "images"

/-- The platform dispatch of lines 75-103: the five known platforms and
their architecture, image script and image file name. -/
def resolvePlatform (isd platform : String) : Option PlatformProfile :=
  if platform = "PC" then
    some ⟨"x86", pathJoin isd "build_pc.sh", "pc.img"⟩
  else if platform = "UEFI-based PC" then
    some ⟨"x86", pathJoin isd "build_pcefi.sh", "pcefi.img"⟩
  else if platform = "Raspberry Pi" then
    some ⟨"armv6", pathJoin isd "build_rpi.sh", "rpi.img"⟩
  else if platform = "TI PandaBoard" then
    some ⟨"armv7", pathJoin isd "build_panda.sh", "panda.img"⟩
  else if platform = "Intel Galileo" then
    some ⟨"x86q", pathJoin isd "build_pcefi.sh", "pcefi.img"⟩
  else none

/-- `pkgroot` (line 105); computed by the source but never used afterwards. -/
def pkgrootOf (cwd arch : String) : String :=
  normpath (pathJoin (pathJoin (pathJoin cwd "..") arch) "packages")

/-- `binroot` (line 106). -/
def binrootOf (cwd arch : String) : String :=
  normpath (pathJoin (pathJoin (pathJoin cwd "..") arch) "bin")

/-- `appsdir` (line 107). -/
def appsdirOf (cwd arch : String) : String := pathJoin (binrootOf cwd arch) "apps"

/-- `opkg_conf` (line 156). -/
def opkgConfOf (cwd arch : String) : String :=
  pathJoin (pathJoin (pathJoin cwd "..") arch) "opkg.conf"

/-- `opkg_args` (line 157). -/
def opkgArgs (appsdir opkg_conf : String) : String :=
  "--offline-root=" ++ sq1 appsdir ++ " --conf=" ++ sq1 opkg_conf ++ " -V2 "

/-- `opkg_args` with both paths derived from `cwd` and `arch`. -/
def opkgArgsOf (cwd arch : String) : String :=
  opkgArgs (appsdirOf cwd arch) (opkgConfOf cwd arch)

/-- One `cp -pv -- '<src>' '<dest>'` invocation per item (the loops of
lines 122-134). -/
def copyItems (cmdOk : String → String → Bool) (binroot destdir : String) :
    List String → BuildM Unit
  | [] => pureB ()
  | item :: rest => do
    runC cmdOk binroot
      ("cp -pv -- " ++ sq1 (pathJoin "." item) ++ " " ++ sq1 (pathJoin destdir item))
    copyItems cmdOk binroot destdir rest

/-- Lines 109-149: destroy and recreate `apps`, copy binaries and
libraries, create the opkg metadata directory, overlay the skeleton, and
symlink the swiss commands. -/
def assembleFs (cmdOk : String → String → Bool) (binroot appsdir : String) :
    BuildM Unit := do
  emit (.rmtree appsdir)
  emit (.mkdir appsdir)
  let bindir := pathJoin appsdir "bin"
  emit (.mkdir bindir)
  copyItems cmdOk binroot bindir SYSTEM_BIN
  let libdir := pathJoin appsdir "lib"
  emit (.mkdir libdir)
  copyItems cmdOk binroot libdir SYSTEM_LIB
  emit (.makedirs (pathJoin (pathJoin (pathJoin appsdir "usr") "lib") "opkg"))
  runC cmdOk binroot "cp -Rpv ./skel/* ./apps/"
  runC cmdOk bindir "for app in `/bin/swiss --list`; do ln -s swiss $app; done"

/-- The `opkg ... install --force-postinstall <package>` command string of
line 167. -/
def installCmd (opkg_args package : String) : String :=
  "opkg " ++ opkg_args ++ " install --force-postinstall " ++ package

/-- Lines 164-167: install each package of `package_list`, in order, one
external invocation each. -/
def installPackages (cmdOk : String → String → Bool) (appsdir opkg_args : String) :
    List String → BuildM Unit
  | [] => pureB ()
  | package :: rest => do
    emit (.print ("Installing package " ++ package))
    runC cmdOk appsdir (installCmd opkg_args package)
    installPackages cmdOk appsdir opkg_args rest

/-- The numeric id a user is created with (lines 180-184): `id = next_id`,
overwritten with 0 when the quoted username is `root`. -/
def userId (next_id : Nat) (u : UserSpec) : Nat :=
  if quote u.username = "root" then 0 else next_id

/-- The counter update of lines 195-196: `if id == next_id: next_id += 1`. -/
def nextUid (next_id : Nat) (u : UserSpec) : Nat :=
  if userId next_id u = next_id then next_id + 1 else next_id

/-- The numeric ids assigned to a user list in order, starting from the
given counter value. -/
def uidTrace (next_id : Nat) : List UserSpec → List Nat
  | [] => []
  | u :: rest => userId next_id u :: uidTrace (nextUid next_id u) rest

/-- Lines 174-217, the body of the user loop for one `UserSpec`: decode the
base64 fields, delete and specially re-create `root`, run `useradd`, and
install the authorized keys when they decode to non-empty content.  Returns
the updated counter. -/
def doUser (cmdOk : String → String → Bool) (appsdir : String) (u : UserSpec)
    (next_id : Nat) : BuildM Nat := do
  let name := quote u.username
  let gecosBytes ← b64decodeM u.gecos
  let gecos := quote (bytesToStr gecosBytes)
  let enable_password := u.enable_password
  let passwordBytes ← b64decodeM u.password
  let password := quote (bytesToStr passwordBytes)
  let id := userId next_id u
  let extra_args := if name = "root" then "--home=/root" else ""
  if name = "root" then
    runC cmdOk appsdir ("userdel --root=\"" ++ appsdir ++ "\" root")
  let command := "useradd --root=\"" ++ appsdir ++ "\" --comment=" ++ gecos ++
    " -mU " ++ extra_args ++ " -u" ++ toString id
  let command := if enable_password then command ++ " --password=" ++ password ++ " "
    else command
  let command := command ++ " " ++ name ++ " "
  runC cmdOk appsdir command
  let keysBytes ← b64decodeM u.ssh_authorized_keys
  if keysBytes.length ≠ 0 then
    let dotssh := pathJoin (pathJoin (pathJoin appsdir "home") name) ".ssh"
    let keyspath := pathJoin dotssh "authorized_keys"
    emit (.mkdir dotssh)
    emit (.writeFile keyspath (bytesToStr keysBytes))
    emit (.chmod keyspath 384)
    emit (.chown keyspath id id)
    emit (.chmod dotssh 509)
    emit (.chown dotssh id id)
  pureB (nextUid next_id u)

/-- The user loop of line 174, threading the `next_id` counter. -/
def provisionUsers (cmdOk : String → String → Bool) (appsdir : String) :
    List UserSpec → Nat → BuildM Unit
  | [], _ => pureB ()
  | u :: rest, next_id => do
    let next_id2 ← doUser cmdOk appsdir u next_id
    provisionUsers cmdOk appsdir rest next_id2

/-- Lines 105-158: filesystem assembly followed by the `opkg update`. -/
def setupRoot (cmdOk : String → String → Bool) (cwd : String)
    (prof : PlatformProfile) : BuildM Unit := do
  let _pkgroot := pkgrootOf cwd prof.arch
  let binroot := binrootOf cwd prof.arch
  let appsdir := appsdirOf cwd prof.arch
  assembleFs cmdOk binroot appsdir
  emit (.print "Updating package list.")
  runC cmdOk appsdir ("opkg " ++ opkgArgsOf cwd prof.arch ++ " update")

/-- Everything between platform resolution and the image-size environment
variable: assembly, index update, package installs, user provisioning
(lines 105-217). -/
def preImage (cmdOk : String → String → Bool) (cwd : String)
    (prof : PlatformProfile) (recipe : BuildRecipe) : BuildM Unit := do
  setupRoot cmdOk cwd prof
  installPackages cmdOk (appsdirOf cwd prof.arch) (opkgArgsOf cwd prof.arch)
    recipe.package_list
  provisionUsers cmdOk (appsdirOf cwd prof.arch) recipe.user_list 1000

/-- Lines 240-260: rename the produced image, compress it, upload the
archive and return 0. -/
def archiveAndUpload (cmdOk : String → String → Bool) (binroot : String)
    (prof : PlatformProfile) : BuildM Nat := do
  emit (.print "Archiving image.")
  runC cmdOk binroot ("mv " ++ sq1 prof.image ++ " minocaos.img")
  runC cmdOk binroot "tar -czf minocaos.tar.gz ./minocaos.img"
  emit (.print "Uploading image.")
  runC cmdOk binroot
    "python ../../../client.py --upload schedule minocaos.tar.gz minocaos.tar.gz"
  emit (.print "Successfully created OS image.")
  pureB 0

/-- Lines 219-260: set the environment consumed by the image script, run
it, then rename, compress and upload the result. -/
def imageAndUpload (cmdOk : String → String → Bool) (binroot : String)
    (prof : PlatformProfile) (image_size : Nat) : BuildM Nat := do
  emit (.setEnv "CI_MIN_IMAGE_SIZE" (toString image_size))
  emit (.print "Creating final image.")
  if prof.arch = "x86q" then
    emit (.setEnv "ARCH" "x86")
    emit (.setEnv "VARIANT" "q")
  else
    emit (.setEnv "ARCH" prof.arch)
  emit (.setEnv "DEBUG" "dbg")
  runC cmdOk binroot ("sh " ++ sq1 prof.image_script)
  archiveAndUpload cmdOk binroot prof

/-- The whole of `main` (lines 69-260): read the recipe, resolve the
platform (returning 1 on an unknown one), then run the pipeline. -/
def mainBuild (cmdOk : String → String → Bool) (cwd : String)
    (recipe : BuildRecipe) : BuildM Nat := do
  emit (.readFile "build_request.json")
  match resolvePlatform (imagescriptdir cwd) recipe.platform with
  | none => do
    emit (.print ("Error: Unknown platform " ++ recipe.platform ++ "\n"))
    pureB 1
  | some prof => do
    preImage cmdOk cwd prof recipe
    imageAndUpload cmdOk (binrootOf cwd prof.arch) prof recipe.image_size

/-- Run `main`: final result and effect trace. -/
def mainRun (cmdOk : String → String → Bool) (cwd : String)
    (recipe : BuildRecipe) : Except Outcome Nat × List Effect :=
  mainBuild cmdOk cwd recipe

/-! ### Observations on traces -/

/-- Whether an effect mutates the filesystem: directory removal or
creation, an external command (which copies, installs or links files), a
file write, or a permission or ownership change.  Reading a file, changing
the current directory, setting an environment variable and printing do
not. -/
def isFsMutation : Effect → Bool
  | .rmtree _ => true
  | .mkdir _ => true
  | .makedirs _ => true
  | .system _ => true
  | .writeFile _ _ => true
  | .chmod _ _ => true
  | .chown _ _ _ => true
  | .readFile _ => false
  | .chdir _ => false
  | .setEnv _ _ => false
  | .print _ => false

/-- Whether an effect sets the environment variable of the given name. -/
def setsEnvNamed (n : String) : Effect → Bool
  | .setEnv m _ => m = n
  | _ => false

/-- No effect of the list runs a system command whose text begins with the
letter `s`, as the image-script invocation `sh '<script>'` does.  Every
command the pipeline issues before the image stage begins with `cp`, `for`,
`opkg`, `userdel` or `useradd`. -/
def NoShSystem (l : List Effect) : Prop :=
  ∀ c, Effect.system c ∈ l → c.data.head? ≠ some 's'

/-- The effects the key-installation step (lines 202-217) can produce and
no other part of the user loop can: directory creation, file write,
permission and ownership changes. -/
def isKeyInstallEffect : Effect → Bool
  | .mkdir _ => true
  | .writeFile _ _ => true
  | .chmod _ _ => true
  | .chown _ _ _ => true
  | _ => false

/-! ### Concrete fixtures for evaluating the pipeline -/

/-- A concrete working directory for evaluated runs. -/
def cwd0 : String := "/srv/minoca/auto/x"

/-- Oracle under which every external command exits with status 0. -/
def allOk : String → String → Bool := fun _ _ => true

/-- The end-to-end recipe of the specification's RPi scenario. -/
def rpiRecipe : BuildRecipe := ⟨"Raspberry Pi", ["vim"], [], 536870912⟩

/-- The profile `resolvePlatform` produces for `"Raspberry Pi"` at `cwd0`. -/
def rpiProf : PlatformProfile :=
  ⟨"armv6", pathJoin (imagescriptdir cwd0) "build_rpi.sh", "rpi.img"⟩

/-- A recipe with an unknown platform string. -/
def amigaRecipe : BuildRecipe := ⟨"Amiga", [], [], 1024⟩

/-- A root user whose `ssh_authorized_keys` decodes to `"ABC"`. -/
def rootUser : UserSpec := ⟨"root", "", false, "", "QUJD"⟩

/-- A recipe provisioning only `rootUser`. -/
def rootRecipe : BuildRecipe := ⟨"Raspberry Pi", [], [rootUser], 1024⟩

/-- A user with `enable_password` false whose `password` field `"a"` is not
valid base64 (one data character is a padding error). -/
def badPwUser : UserSpec := ⟨"eve", "", false, "a", ""⟩

/-- A recipe provisioning only `badPwUser`. -/
def badPwRecipe : BuildRecipe := ⟨"PC", [], [badPwUser], 1024⟩

/-- The `useradd` command the run on `rootRecipe` issues for root. -/
def rootUseraddCmd : String :=
  "useradd --root=\"" ++ appsdirOf cwd0 "armv6" ++ "\" --comment=" ++ (sq ++ sq) ++
    " -mU --home=/root -u0 root "

/-- The user list of the specification's counter scenario. -/
def demoUsers : List UserSpec :=
  [⟨"root", "", false, "", ""⟩, ⟨"alice", "", false, "", ""⟩, ⟨"bob", "", false, "", ""⟩]

/-- A user with a shell-unsafe username (it contains a space). -/
def spaceUser : UserSpec := ⟨"a b", "", false, "", "QUJD"⟩

/-- A user whose `ssh_authorized_keys` decodes to the empty string. -/
def noKeysUser : UserSpec := ⟨"carol", "", false, "", ""⟩

/-- A three-package recipe whose middle package will fail to install. -/
def pkgFailRecipe : BuildRecipe := ⟨"PC", ["one", "two", "three"], [], 1024⟩

/-- The profile `resolvePlatform` produces for `"PC"` at `cwd0`. -/
def pcProf : PlatformProfile :=
  ⟨"x86", pathJoin (imagescriptdir cwd0) "build_pc.sh", "pc.img"⟩

/-- Oracle under which exactly the `opkg install` of package `"two"` (run
for `pkgFailRecipe` at `cwd0`) fails. -/
def failTwo : String → String → Bool := fun _ c =>
  !(c == installCmd (opkgArgsOf cwd0 "x86") "two")

/-! ## Lemmas about the trace monad -/

theorem bind_eq_bindB {α β : Type} (m : BuildM α) (f : α → BuildM β) :
    m >>= f = bindB m f := rfl

theorem bindB_ok {α β : Type} (a : α) (es : List Effect) (f : α → BuildM β) :
    bindB (.ok a, es) f = ((f a).1, es ++ (f a).2) := rfl

theorem bindB_error {α β : Type} (o : Outcome) (es : List Effect) (f : α → BuildM β) :
    bindB (.error o, es) f = (.error o, es) := rfl

theorem bindB_of_fst_ok {α β : Type} {m : BuildM α} {a : α} (h : m.1 = .ok a)
    (f : α → BuildM β) : bindB m f = ((f a).1, m.2 ++ (f a).2) := by
  obtain ⟨r, es⟩ := m
  cases r with
  | ok x => cases h; rfl
  | error o => exact absurd h (by simp)

theorem bindB_of_fst_error {α β : Type} {m : BuildM α} {o : Outcome}
    (h : m.1 = .error o) (f : α → BuildM β) : bindB m f = (.error o, m.2) := by
  obtain ⟨r, es⟩ := m
  cases r with
  | ok x => exact absurd h (by simp)
  | error o2 => cases h; rfl

theorem bindB_pureB {α β : Type} (a : α) (f : α → BuildM β) :
    bindB (pureB a) f = f a := rfl

theorem runC_of_true {cmdOk : String → String → Bool} {d c : String}
    (h : cmdOk d c = true) :
    runC cmdOk d c = (.ok (), [.chdir d, .system c]) := by
  simp [runC, h]

theorem runC_of_false {cmdOk : String → String → Bool} {d c : String}
    (h : cmdOk d c = false) :
    runC cmdOk d c =
      (.error (.exited 1),
       [.chdir d, .system c,
        .print ("Command " ++ c ++ " returned with nonzero status")]) := by
  simp [runC, h]

theorem runC_fst_ok {cmdOk : String → String → Bool} {d c : String} {u : Unit}
    (h : (runC cmdOk d c).1 = .ok u) : cmdOk d c = true := by
  by_cases hc : cmdOk d c
  · exact hc
  · rw [runC_of_false (by simpa using hc)] at h
    exact absurd h (by simp)

/-! ## C1: sequential UID allocation -/

theorem nextUid_of_pos {n : Nat} (u : UserSpec) (hn : 0 < n) :
    nextUid n u = if quote u.username = "root" then n else n + 1 := by
  unfold nextUid userId
  by_cases h : quote u.username = "root"
  · rw [if_pos h, if_pos h, if_neg (Nat.ne_of_lt hn)]
  · rw [if_neg h, if_neg h, if_pos rfl]

theorem uidTrace_getD (users : List UserSpec) (n k : Nat) (hn : 0 < n)
    (hk : k < users.length) :
    (uidTrace n users).getD k 0 =
      if quote ((users.getD k default).username) = "root" then 0
      else n + (users.take k).countP (fun v => !(quote v.username == "root")) := by
  induction users generalizing n k with
  | nil => simp at hk
  | cons u rest ih =>
    cases k with
    | zero =>
      by_cases h : quote u.username = "root" <;> simp [uidTrace, userId, h]
    | succ k =>
      have hn2 : 0 < nextUid n u := by unfold nextUid; split <;> omega
      have hk2 : k < rest.length := by simpa using hk
      have hrec := ih (nextUid n u) k hn2 hk2
      simp only [uidTrace, List.getD_cons_succ, List.take_succ_cons, List.countP_cons]
      rw [hrec, nextUid_of_pos u hn]
      rcases eq_or_ne (quote ((rest.getD k default)).username) "root" with hC | hC
      · rw [if_pos hC, if_pos hC]
      · rw [if_neg hC, if_neg hC]
        by_cases hq : quote u.username = "root"
        · have hb : (!(quote u.username == "root")) = false := by simp [hq]
          rw [if_pos hq, hb]
          simp
        · have hb : (!(quote u.username == "root")) = true := by simp [hq]
          rw [if_neg hq, hb]
          simp
          omega

/-- C1: in `user_list` order, an entry whose (quoted) username is `root` is
created with id 0 and never consumes a counter value, while every other
entry receives `1000 + (number of preceding non-root entries)` — so the
non-root users receive sequential UIDs starting at 1000.  In particular for
`[root, alice, bob]`, alice receives 1000 and bob 1001 (see the witness). -/
theorem c1_uid_allocation (users : List UserSpec) (k : Nat) (hk : k < users.length) :
    (uidTrace 1000 users).getD k 0 =
      if quote ((users.getD k default).username) = "root" then 0
      else 1000 + (users.take k).countP (fun v => !(quote v.username == "root")) :=
  uidTrace_getD users 1000 k (by omega) hk

/-- Witness for C1 at the concrete list `[root, alice, bob]`. -/
theorem c1_uid_allocation_witness :
    (uidTrace 1000 demoUsers).getD 0 0 = 0 ∧
    (uidTrace 1000 demoUsers).getD 1 0 = 1000 ∧
    (uidTrace 1000 demoUsers).getD 2 0 = 1001 := by
  refine ⟨?_, ?_, ?_⟩
  · rw [c1_uid_allocation demoUsers 0 (by decide)]; decide
  · rw [c1_uid_allocation demoUsers 1 (by decide)]; decide
  · rw [c1_uid_allocation demoUsers 2 (by decide)]; decide

/-! ## C5: unknown platform fails before any filesystem mutation -/

theorem resolvePlatform_eq_none (isd platform : String)
    (h : platform ∉
      ["PC", "UEFI-based PC", "Raspberry Pi", "TI PandaBoard", "Intel Galileo"]) :
    resolvePlatform isd platform = none := by
  simp only [List.mem_cons, List.mem_singleton, not_or] at h
  obtain ⟨h1, h2, h3, h4, h5⟩ := h
  simp [resolvePlatform, h1, h2, h3, h4, h5]

/-- C5: a recipe whose platform is not one of the five known identifiers
makes `main` return 1 right after the platform dispatch; the trace holds
only the recipe read and the error message — no filesystem mutation. -/
theorem c5_unknown_platform (cmdOk : String → String → Bool) (cwd : String)
    (recipe : BuildRecipe)
    (h : recipe.platform ∉
      ["PC", "UEFI-based PC", "Raspberry Pi", "TI PandaBoard", "Intel Galileo"]) :
    (mainRun cmdOk cwd recipe).1 = .ok 1 ∧
    (mainRun cmdOk cwd recipe).2 =
      [.readFile "build_request.json",
       .print ("Error: Unknown platform " ++ recipe.platform ++ "\n")] ∧
    ∀ e ∈ (mainRun cmdOk cwd recipe).2, isFsMutation e = false := by
  have hr := resolvePlatform_eq_none (imagescriptdir cwd) recipe.platform h
  have hmain : mainRun cmdOk cwd recipe =
      (.ok 1, [.readFile "build_request.json",
               .print ("Error: Unknown platform " ++ recipe.platform ++ "\n")]) := by
    unfold mainRun mainBuild
    rw [bind_eq_bindB]
    rw [hr]
    rfl
  rw [hmain]
  refine ⟨rfl, rfl, ?_⟩
  intro e he
  simp only [List.mem_cons, List.not_mem_nil, or_false] at he
  rcases he with h1 | h1 <;> subst h1 <;> rfl

/-- Witness for C5 at the concrete platform string `"Amiga"`. -/
theorem c5_unknown_platform_witness :
    (mainRun allOk cwd0 amigaRecipe).1 = .ok 1 ∧
    (mainRun allOk cwd0 amigaRecipe).2 =
      [.readFile "build_request.json", .print "Error: Unknown platform Amiga\n"] :=
  ⟨(c5_unknown_platform allOk cwd0 amigaRecipe (by decide)).1,
   (c5_unknown_platform allOk cwd0 amigaRecipe (by decide)).2.1⟩

/-! ## Decomposition of the pipeline's trace -/

theorem pure_eq_pureB {α : Type} (a : α) : (pure a : BuildM α) = pureB a := rfl

theorem bindB_emit {α : Type} (e : Effect) (f : Unit → BuildM α) :
    bindB (emit e) f = ((f ()).1, e :: (f ()).2) := rfl

theorem bindB_runC_snd {α : Type} (cmdOk : String → String → Bool) (d c : String)
    (f : Unit → BuildM α) :
    ∃ t, (bindB (runC cmdOk d c) f).2 = Effect.chdir d :: Effect.system c :: t := by
  by_cases h : cmdOk d c
  · refine ⟨(f ()).2, ?_⟩
    rw [runC_of_true h]
    rfl
  · refine ⟨[Effect.print ("Command " ++ c ++ " returned with nonzero status")], ?_⟩
    rw [runC_of_false (by simpa using h)]
    rfl

theorem b64decodeM_snd_nil (s : String) : (b64decodeM s).2 = [] := by
  unfold b64decodeM
  cases b64decode s <;> rfl

theorem preImage_def (cmdOk : String → String → Bool) (cwd : String)
    (prof : PlatformProfile) (recipe : BuildRecipe) :
    preImage cmdOk cwd prof recipe =
      bindB (setupRoot cmdOk cwd prof) (fun _ =>
        bindB (installPackages cmdOk (appsdirOf cwd prof.arch)
            (opkgArgsOf cwd prof.arch) recipe.package_list) (fun _ =>
          provisionUsers cmdOk (appsdirOf cwd prof.arch) recipe.user_list 1000)) := rfl

theorem mainRun_known (cmdOk : String → String → Bool) (cwd : String)
    (recipe : BuildRecipe) (prof : PlatformProfile)
    (hplat : resolvePlatform (imagescriptdir cwd) recipe.platform = some prof) :
    mainRun cmdOk cwd recipe =
      bindB (emit (.readFile "build_request.json")) (fun _ =>
        bindB (preImage cmdOk cwd prof recipe) (fun _ =>
          imageAndUpload cmdOk (binrootOf cwd prof.arch) prof recipe.image_size)) := by
  unfold mainRun mainBuild
  simp only [bind_eq_bindB, hplat]

theorem mainRun_of_preImage_ok (cmdOk : String → String → Bool) (cwd : String)
    (recipe : BuildRecipe) (prof : PlatformProfile)
    (hplat : resolvePlatform (imagescriptdir cwd) recipe.platform = some prof)
    (hpre : (preImage cmdOk cwd prof recipe).1 = .ok ()) :
    mainRun cmdOk cwd recipe =
      ((imageAndUpload cmdOk (binrootOf cwd prof.arch) prof recipe.image_size).1,
       .readFile "build_request.json" ::
         ((preImage cmdOk cwd prof recipe).2 ++
          (imageAndUpload cmdOk (binrootOf cwd prof.arch) prof recipe.image_size).2)) := by
  rw [mainRun_known cmdOk cwd recipe prof hplat, bindB_emit,
    bindB_of_fst_ok hpre]

theorem imageAndUpload_shape (cmdOk : String → String → Bool) (b : String)
    (prof : PlatformProfile) (n : Nat) :
    ∃ t, (imageAndUpload cmdOk b prof n).2 =
      Effect.setEnv "CI_MIN_IMAGE_SIZE" (toString n) ::
      Effect.print "Creating final image." ::
      ((if prof.arch = "x86q" then
          [Effect.setEnv "ARCH" "x86", Effect.setEnv "VARIANT" "q"]
        else [Effect.setEnv "ARCH" prof.arch]) ++
       Effect.setEnv "DEBUG" "dbg" :: Effect.chdir b ::
       Effect.system ("sh " ++ sq1 prof.image_script) :: t) := by
  unfold imageAndUpload
  by_cases ha : prof.arch = "x86q" <;>
    by_cases hs : cmdOk b ("sh " ++ sq1 prof.image_script)
  · refine ⟨(archiveAndUpload cmdOk b prof).2, ?_⟩
    simp [bind_eq_bindB, bindB, emit, runC, ha, hs]
  · refine ⟨[Effect.print ("Command " ++ ("sh " ++ sq1 prof.image_script) ++
      " returned with nonzero status")], ?_⟩
    simp [bind_eq_bindB, bindB, emit, runC, ha, hs]
  · refine ⟨(archiveAndUpload cmdOk b prof).2, ?_⟩
    simp [bind_eq_bindB, bindB, emit, runC, ha, hs]
  · refine ⟨[Effect.print ("Command " ++ ("sh " ++ sq1 prof.image_script) ++
      " returned with nonzero status")], ?_⟩
    simp [bind_eq_bindB, bindB, emit, runC, ha, hs]

/-! ## C9: DEBUG is always set to the literal `dbg` just before the script -/

/-- C9: for every recipe, working directory, oracle and known platform,
once the stages before the image step have succeeded the trace sets the
environment variable `DEBUG` to the fixed literal `dbg` immediately before
changing to the binary root and invoking the platform's image script; the
value does not depend on the recipe. -/
theorem c9_debug_always_dbg (cmdOk : String → String → Bool) (cwd : String)
    (recipe : BuildRecipe) (prof : PlatformProfile)
    (hplat : resolvePlatform (imagescriptdir cwd) recipe.platform = some prof)
    (hpre : (preImage cmdOk cwd prof recipe).1 = .ok ()) :
    ∃ l1 l2, (mainRun cmdOk cwd recipe).2 =
      l1 ++ Effect.setEnv "DEBUG" "dbg" ::
        Effect.chdir (binrootOf cwd prof.arch) ::
        Effect.system ("sh " ++ sq1 prof.image_script) :: l2 := by
  obtain ⟨t, ht⟩ :=
    imageAndUpload_shape cmdOk (binrootOf cwd prof.arch) prof recipe.image_size
  rw [mainRun_of_preImage_ok cmdOk cwd recipe prof hplat hpre]
  refine ⟨.readFile "build_request.json" ::
    ((preImage cmdOk cwd prof recipe).2 ++
      (Effect.setEnv "CI_MIN_IMAGE_SIZE" (toString recipe.image_size) ::
       Effect.print "Creating final image." ::
       (if prof.arch = "x86q" then
          [Effect.setEnv "ARCH" "x86", Effect.setEnv "VARIANT" "q"]
        else [Effect.setEnv "ARCH" prof.arch]))), t, ?_⟩
  rw [ht]
  simp

/-- Witness for C9: the Raspberry Pi scenario sets `DEBUG=dbg`. -/
theorem c9_debug_always_dbg_witness :
    Effect.setEnv "DEBUG" "dbg" ∈ (mainRun allOk cwd0 rpiRecipe).2 := by
  obtain ⟨l1, l2, h⟩ :=
    c9_debug_always_dbg allOk cwd0 rpiRecipe rpiProf (by decide) (by decide)
  rw [h]
  simp

/-! ## C2: the image-size environment variable is `CI_MIN_IMAGE_SIZE` -/

/-- C2 counterexample: in the successful Raspberry Pi run no effect ever
sets a variable named `MIN_IMAGE_SIZE`; the variable set is
`CI_MIN_IMAGE_SIZE`. -/
theorem c2_counterexample :
    (mainRun allOk cwd0 rpiRecipe).1 = .ok 0 ∧
    (mainRun allOk cwd0 rpiRecipe).2.all
      (fun e => !(setsEnvNamed "MIN_IMAGE_SIZE" e)) = true ∧
    Effect.setEnv "CI_MIN_IMAGE_SIZE" "536870912" ∈ (mainRun allOk cwd0 rpiRecipe).2 := by
  decide

/-- C2 amended: before invoking the platform's image script, the pipeline
sets the environment variable `CI_MIN_IMAGE_SIZE` (not `MIN_IMAGE_SIZE`) to
the decimal rendering of the recipe's `image_size`; the script invocation
follows it in the trace. -/
theorem c2_ci_min_image_size (cmdOk : String → String → Bool) (cwd : String)
    (recipe : BuildRecipe) (prof : PlatformProfile)
    (hplat : resolvePlatform (imagescriptdir cwd) recipe.platform = some prof)
    (hpre : (preImage cmdOk cwd prof recipe).1 = .ok ()) :
    ∃ l1 l2, (mainRun cmdOk cwd recipe).2 =
      l1 ++ Effect.setEnv "CI_MIN_IMAGE_SIZE" (toString recipe.image_size) :: l2 ∧
      Effect.system ("sh " ++ sq1 prof.image_script) ∈ l2 := by
  obtain ⟨t, ht⟩ :=
    imageAndUpload_shape cmdOk (binrootOf cwd prof.arch) prof recipe.image_size
  rw [mainRun_of_preImage_ok cmdOk cwd recipe prof hplat hpre]
  refine ⟨.readFile "build_request.json" :: (preImage cmdOk cwd prof recipe).2,
    Effect.print "Creating final image." ::
      ((if prof.arch = "x86q" then
          [Effect.setEnv "ARCH" "x86", Effect.setEnv "VARIANT" "q"]
        else [Effect.setEnv "ARCH" prof.arch]) ++
       Effect.setEnv "DEBUG" "dbg" :: Effect.chdir (binrootOf cwd prof.arch) ::
       Effect.system ("sh " ++ sq1 prof.image_script) :: t), ?_, ?_⟩
  · rw [ht]
    simp
  · simp

/-- Witness for the amended C2 at the Raspberry Pi scenario. -/
theorem c2_ci_min_image_size_witness :
    Effect.setEnv "CI_MIN_IMAGE_SIZE" "536870912" ∈ (mainRun allOk cwd0 rpiRecipe).2 := by
  obtain ⟨l1, l2, h, _⟩ :=
    c2_ci_min_image_size allOk cwd0 rpiRecipe rpiProf (by decide) (by decide)
  rw [h]
  have hv : toString rpiRecipe.image_size = "536870912" := by decide
  rw [hv]
  exact List.mem_append_right _ (List.mem_cons_self _ _)

/-! ## C3: the password field is decoded for every user, unconditionally -/

/-- C3 counterexample: `badPwUser` has `enable_password = false` and a
password field that is not valid base64, yet the run terminates with an
uncaught decoding exception. -/
theorem c3_counterexample :
    badPwUser.enable_password = false ∧
    b64decode badPwUser.password = none ∧
    (mainRun allOk cwd0 badPwRecipe).1 = .error .raised := by
  decide

/-- C3 amended: the user loop base64-decodes the password field of every
user before consulting `enable_password`; a user whose password is not
valid base64 aborts the run with an uncaught exception (before issuing any
account command), even when `enable_password` is false. -/
theorem c3_password_always_decoded (cmdOk : String → String → Bool)
    (appsdir : String) (u : UserSpec) (next_id : Nat) (g : List Nat)
    (hg : b64decode u.gecos = some g)
    (hp : b64decode u.password = none) :
    doUser cmdOk appsdir u next_id = (.error .raised, []) := by
  unfold doUser
  simp [bind_eq_bindB, b64decodeM, hg, hp, bindB, pureB, throwB]

/-- Witness for the amended C3 at the concrete user `badPwUser`. -/
theorem c3_password_always_decoded_witness :
    doUser allOk "/apps" badPwUser 1000 = (.error .raised, []) :=
  c3_password_always_decoded allOk "/apps" badPwUser 1000 [] (by decide) (by decide)

/-! ## C8: keys decoding to the empty string install nothing -/

theorem forall_mem_bindB {P : Effect → Prop} {α β : Type} (m : BuildM α)
    (f : α → BuildM β) (hm : ∀ e ∈ m.2, P e) (hf : ∀ a, ∀ e ∈ (f a).2, P e) :
    ∀ e ∈ (bindB m f).2, P e := by
  obtain ⟨r, es⟩ := m
  cases r with
  | ok a =>
    intro e he
    rw [bindB_ok] at he
    rcases List.mem_append.1 he with h | h
    · exact hm e h
    · exact hf a e h
  | error o => exact hm

theorem forall_mem_runC {P : Effect → Prop} (cmdOk : String → String → Bool)
    (d c : String) (h1 : P (.chdir d)) (h2 : P (.system c))
    (h3 : P (.print ("Command " ++ c ++ " returned with nonzero status"))) :
    ∀ e ∈ (runC cmdOk d c).2, P e := by
  intro e he
  by_cases h : cmdOk d c
  · rw [runC_of_true h] at he
    simp only [List.mem_cons, List.not_mem_nil, or_false] at he
    rcases he with h | h <;> subst h <;> assumption
  · rw [runC_of_false (by simpa using h)] at he
    simp only [List.mem_cons, List.not_mem_nil, or_false] at he
    rcases he with h | h | h <;> subst h <;> assumption

theorem forall_mem_b64decodeM {P : Effect → Prop} (s : String) :
    ∀ e ∈ (b64decodeM s).2, P e := by
  intro e he
  rw [b64decodeM_snd_nil] at he
  exact absurd he (List.not_mem_nil e)

theorem forall_mem_iteB {P : Effect → Prop} {α : Type} (c : Prop) [Decidable c]
    (m1 m2 : BuildM α) (h1 : ∀ e ∈ m1.2, P e) (h2 : ∀ e ∈ m2.2, P e) :
    ∀ e ∈ (if c then m1 else m2).2, P e := by
  by_cases hc : c
  · rw [if_pos hc]; exact h1
  · rw [if_neg hc]; exact h2

/-- C8: for a user whose `ssh_authorized_keys` field decodes to the empty
string, the user-loop iteration performs no directory creation, no file
write and no permission or ownership change — the key-installation step is
skipped entirely, leaving the home tree untouched. -/
theorem c8_empty_keys_install_nothing (cmdOk : String → String → Bool)
    (appsdir : String) (u : UserSpec) (next_id : Nat)
    (hkeys : b64decode u.ssh_authorized_keys = some []) :
    ∀ e ∈ (doUser cmdOk appsdir u next_id).2, isKeyInstallEffect e = false := by
  have hk : b64decodeM u.ssh_authorized_keys = pureB ([] : List Nat) := by
    simp [b64decodeM, hkeys]
  unfold doUser
  simp only [bind_eq_bindB, pure_eq_pureB, hk, bindB_pureB, List.length_nil,
    ne_eq, not_true_eq_false, if_false, ite_false]
  refine forall_mem_bindB _ _ (forall_mem_b64decodeM _) (fun g => ?_)
  refine forall_mem_bindB _ _ (forall_mem_b64decodeM _) (fun p => ?_)
  refine forall_mem_iteB _ _ _ ?_ ?_
  · refine forall_mem_bindB _ _
      (forall_mem_runC cmdOk appsdir _ rfl rfl rfl) (fun _ => ?_)
    refine forall_mem_bindB _ _
      (forall_mem_runC cmdOk appsdir _ rfl rfl rfl) (fun _ => ?_)
    intro e he
    exact absurd he (List.not_mem_nil e)
  · refine forall_mem_bindB _ _
      (forall_mem_runC cmdOk appsdir _ rfl rfl rfl) (fun _ => ?_)
    intro e he
    exact absurd he (List.not_mem_nil e)

/-- Witness for C8 at the concrete user `noKeysUser`. -/
theorem c8_empty_keys_install_nothing_witness :
    (doUser allOk "/apps" noKeysUser 1000).2.all
      (fun e => !(isKeyInstallEffect e)) = true := by
  rw [List.all_eq_true]
  intro e he
  have h := c8_empty_keys_install_nothing allOk "/apps" noKeysUser 1000
    (by decide) e he
  simp [h]

/-! ## C7: the Raspberry Pi end-to-end scenario -/

/-- C7: the recipe `{platform: "Raspberry Pi", package_list: ["vim"],
user_list: [], image_size: 536870912}` resolves to architecture `armv6`
and image name `rpi.img`; the successful run sets `ARCH` to `armv6` (and
to no other value) before invoking the RPi image script, then renames
`rpi.img` to `minocaos.img` and compresses it into `minocaos.tar.gz`, in
that order. -/
theorem c7_rpi_end_to_end :
    resolvePlatform (imagescriptdir cwd0) rpiRecipe.platform = some rpiProf ∧
    rpiProf.arch = "armv6" ∧ rpiProf.image = "rpi.img" ∧
    (mainRun allOk cwd0 rpiRecipe).1 = .ok 0 ∧
    Effect.setEnv "ARCH" "armv6" ∈ (mainRun allOk cwd0 rpiRecipe).2 ∧
    (mainRun allOk cwd0 rpiRecipe).2.filter (setsEnvNamed "ARCH") =
      [Effect.setEnv "ARCH" "armv6"] ∧
    Effect.system ("sh " ++ sq1 rpiProf.image_script) ∈
      (mainRun allOk cwd0 rpiRecipe).2 ∧
    Effect.system ("mv " ++ sq1 "rpi.img" ++ " minocaos.img") ∈
      (mainRun allOk cwd0 rpiRecipe).2 ∧
    Effect.system "tar -czf minocaos.tar.gz ./minocaos.img" ∈
      (mainRun allOk cwd0 rpiRecipe).2 ∧
    (mainRun allOk cwd0 rpiRecipe).2.indexOf (Effect.setEnv "ARCH" "armv6") <
      (mainRun allOk cwd0 rpiRecipe).2.indexOf
        (Effect.system ("sh " ++ sq1 rpiProf.image_script)) ∧
    (mainRun allOk cwd0 rpiRecipe).2.indexOf
        (Effect.system ("sh " ++ sq1 rpiProf.image_script)) <
      (mainRun allOk cwd0 rpiRecipe).2.indexOf
        (Effect.system ("mv " ++ sq1 "rpi.img" ++ " minocaos.img")) ∧
    (mainRun allOk cwd0 rpiRecipe).2.indexOf
        (Effect.system ("mv " ++ sq1 "rpi.img" ++ " minocaos.img")) <
      (mainRun allOk cwd0 rpiRecipe).2.indexOf
        (Effect.system "tar -czf minocaos.tar.gz ./minocaos.img") := by
  decide

/-! ## C4: where root's authorized keys actually land -/

/-- C4, evaluation at the failing input: the run on `rootRecipe` recreates
root with home directory `/root` (the `--home=/root` in the `useradd`
command), yet creates the `.ssh` directory and writes `authorized_keys`
under `<apps>/home/root/.ssh`; no `.ssh` directory is ever created at
`<apps>/root/.ssh`, root's actual home inside the assembled root. -/
theorem c4_root_keys_outside_home :
    Effect.system rootUseraddCmd ∈ (mainRun allOk cwd0 rootRecipe).2 ∧
    Effect.mkdir (appsdirOf cwd0 "armv6" ++ "/home/root/.ssh") ∈
      (mainRun allOk cwd0 rootRecipe).2 ∧
    Effect.writeFile (appsdirOf cwd0 "armv6" ++ "/home/root/.ssh/authorized_keys")
      "ABC" ∈ (mainRun allOk cwd0 rootRecipe).2 ∧
    (mainRun allOk cwd0 rootRecipe).2.all
      (fun e => !(e == Effect.mkdir (appsdirOf cwd0 "armv6" ++ "/root/.ssh"))) =
      true := by
  decide

/-! ## C6: packages install in order; a failure stops everything

The machinery below shows that no command issued before the image stage
begins with the letter `s`, so the image-script invocation `sh '<script>'`
cannot occur in a trace that ends inside the package stage. -/

theorem strHead_append (a b : String) (x : Char) (h : a.data.head? = some x) :
    (a ++ b).data.head? = some x := by
  have hd : (a ++ b).data = a.data ++ b.data := by
    cases a; cases b; rfl
  rw [hd]
  cases hdata : a.data with
  | nil => rw [hdata] at h; cases h
  | cons y ys => rw [hdata] at h; simpa using h

theorem headC_ne_s {a : String} (h : a.data.head? = some 'c') :
    a.data.head? ≠ some 's' := by rw [h]; decide

theorem headF_ne_s {a : String} (h : a.data.head? = some 'f') :
    a.data.head? ≠ some 's' := by rw [h]; decide

theorem headO_ne_s {a : String} (h : a.data.head? = some 'o') :
    a.data.head? ≠ some 's' := by rw [h]; decide

theorem headU_ne_s {a : String} (h : a.data.head? = some 'u') :
    a.data.head? ≠ some 's' := by rw [h]; decide

theorem noShSystem_nil : NoShSystem [] := by
  intro c hc
  cases hc

theorem noShSystem_append {l1 l2 : List Effect} (h1 : NoShSystem l1)
    (h2 : NoShSystem l2) : NoShSystem (l1 ++ l2) := by
  intro c hc
  rcases List.mem_append.1 hc with h | h
  · exact h1 c h
  · exact h2 c h

theorem noShSystem_bindB {α β : Type} (m : BuildM α) (f : α → BuildM β)
    (hm : NoShSystem m.2) (hf : ∀ a, NoShSystem (f a).2) :
    NoShSystem (bindB m f).2 := by
  obtain ⟨r, es⟩ := m
  cases r with
  | ok a => exact noShSystem_append hm (hf a)
  | error o => exact hm

theorem noShSystem_emit (e : Effect) (h : ∀ c, e ≠ .system c) :
    NoShSystem (emit e).2 := by
  intro c hc
  exact absurd (List.mem_singleton.1 hc).symm (h c)

theorem noShSystem_runC (cmdOk : String → String → Bool) (d c0 : String)
    (h : c0.data.head? ≠ some 's') : NoShSystem (runC cmdOk d c0).2 := by
  intro c hc
  by_cases hok : cmdOk d c0
  · rw [runC_of_true hok] at hc
    simp only [List.mem_cons, List.not_mem_nil, or_false] at hc
    rcases hc with h1 | h1
    · exact Effect.noConfusion h1
    · injection h1 with h2
      subst h2
      exact h
  · rw [runC_of_false (by simpa using hok)] at hc
    simp only [List.mem_cons, List.not_mem_nil, or_false] at hc
    rcases hc with h1 | h1 | h1
    · exact Effect.noConfusion h1
    · injection h1 with h2
      subst h2
      exact h
    · exact Effect.noConfusion h1

theorem noShSystem_b64decodeM (s : String) : NoShSystem (b64decodeM s).2 := by
  intro c hc
  rw [b64decodeM_snd_nil] at hc
  cases hc

theorem noShSystem_iteB {α : Type} (cnd : Prop) [Decidable cnd]
    (m1 m2 : BuildM α) (h1 : NoShSystem m1.2) (h2 : NoShSystem m2.2) :
    NoShSystem (if cnd then m1 else m2).2 := by
  by_cases hc : cnd
  · rw [if_pos hc]; exact h1
  · rw [if_neg hc]; exact h2

theorem noShSystem_copyItems (cmdOk : String → String → Bool)
    (binroot destdir : String) (items : List String) :
    NoShSystem (copyItems cmdOk binroot destdir items).2 := by
  induction items with
  | nil => exact noShSystem_nil
  | cons it rest ih =>
    unfold copyItems
    simp only [bind_eq_bindB]
    refine noShSystem_bindB _ _ ?_ (fun _ => ih)
    refine noShSystem_runC _ _ _ (headC_ne_s ?_)
    repeat apply strHead_append
    rfl

theorem noShSystem_assembleFs (cmdOk : String → String → Bool)
    (binroot appsdir : String) : NoShSystem (assembleFs cmdOk binroot appsdir).2 := by
  unfold assembleFs
  simp only [bind_eq_bindB]
  refine noShSystem_bindB _ _
    (noShSystem_emit _ (fun c h => Effect.noConfusion h)) (fun _ => ?_)
  refine noShSystem_bindB _ _
    (noShSystem_emit _ (fun c h => Effect.noConfusion h)) (fun _ => ?_)
  refine noShSystem_bindB _ _
    (noShSystem_emit _ (fun c h => Effect.noConfusion h)) (fun _ => ?_)
  refine noShSystem_bindB _ _ (noShSystem_copyItems _ _ _ _) (fun _ => ?_)
  refine noShSystem_bindB _ _
    (noShSystem_emit _ (fun c h => Effect.noConfusion h)) (fun _ => ?_)
  refine noShSystem_bindB _ _ (noShSystem_copyItems _ _ _ _) (fun _ => ?_)
  refine noShSystem_bindB _ _
    (noShSystem_emit _ (fun c h => Effect.noConfusion h)) (fun _ => ?_)
  refine noShSystem_bindB _ _ ?_ (fun _ => ?_)
  · exact noShSystem_runC _ _ _ (headC_ne_s rfl)
  · exact noShSystem_runC _ _ _ (headF_ne_s rfl)

theorem noShSystem_installPackages (cmdOk : String → String → Bool)
    (d args : String) (pkgs : List String) :
    NoShSystem (installPackages cmdOk d args pkgs).2 := by
  induction pkgs with
  | nil => exact noShSystem_nil
  | cons p rest ih =>
    unfold installPackages
    simp only [bind_eq_bindB]
    refine noShSystem_bindB _ _
      (noShSystem_emit _ (fun c h => Effect.noConfusion h)) (fun _ => ?_)
    refine noShSystem_bindB _ _ ?_ (fun _ => ih)
    refine noShSystem_runC _ _ _ (headO_ne_s ?_)
    repeat apply strHead_append
    rfl

theorem noShSystem_doUser (cmdOk : String → String → Bool) (appsdir : String)
    (u : UserSpec) (next_id : Nat) : NoShSystem (doUser cmdOk appsdir u next_id).2 := by
  unfold doUser
  simp only [bind_eq_bindB, pure_eq_pureB]
  refine noShSystem_bindB _ _ (noShSystem_b64decodeM _) (fun g => ?_)
  refine noShSystem_bindB _ _ (noShSystem_b64decodeM _) (fun p => ?_)
  refine noShSystem_iteB _ _ _ ?_ ?_
  · refine noShSystem_bindB _ _ ?_ (fun _ => ?_)
    · refine noShSystem_runC _ _ _ (headU_ne_s ?_)
      repeat apply strHead_append
      rfl
    · refine noShSystem_bindB _ _ ?_ (fun _ => ?_)
      · refine noShSystem_runC _ _ _ (headU_ne_s ?_)
        repeat apply strHead_append
        by_cases hen : u.enable_password = true
        · rw [if_pos hen]
          repeat apply strHead_append
          rfl
        · rw [if_neg hen]
          repeat apply strHead_append
          rfl
      · refine noShSystem_bindB _ _ (noShSystem_b64decodeM _) (fun kb => ?_)
        refine noShSystem_iteB _ _ _ ?_ noShSystem_nil
        refine noShSystem_bindB _ _
          (noShSystem_emit _ (fun c h => Effect.noConfusion h)) (fun _ => ?_)
        refine noShSystem_bindB _ _
          (noShSystem_emit _ (fun c h => Effect.noConfusion h)) (fun _ => ?_)
        refine noShSystem_bindB _ _
          (noShSystem_emit _ (fun c h => Effect.noConfusion h)) (fun _ => ?_)
        refine noShSystem_bindB _ _
          (noShSystem_emit _ (fun c h => Effect.noConfusion h)) (fun _ => ?_)
        refine noShSystem_bindB _ _
          (noShSystem_emit _ (fun c h => Effect.noConfusion h)) (fun _ => ?_)
        refine noShSystem_bindB _ _
          (noShSystem_emit _ (fun c h => Effect.noConfusion h)) (fun _ => ?_)
        exact noShSystem_nil
  · refine noShSystem_bindB _ _ noShSystem_nil (fun _ => ?_)
    refine noShSystem_bindB _ _ ?_ (fun _ => ?_)
    · refine noShSystem_runC _ _ _ (headU_ne_s ?_)
      repeat apply strHead_append
      by_cases hen : u.enable_password = true
      · rw [if_pos hen]
        repeat apply strHead_append
        rfl
      · rw [if_neg hen]
        repeat apply strHead_append
        rfl
    · refine noShSystem_bindB _ _ (noShSystem_b64decodeM _) (fun kb => ?_)
      refine noShSystem_iteB _ _ _ ?_ ?_
      · refine noShSystem_bindB _ _
          (noShSystem_emit _ (fun c h => Effect.noConfusion h)) (fun _ => ?_)
        refine noShSystem_bindB _ _
          (noShSystem_emit _ (fun c h => Effect.noConfusion h)) (fun _ => ?_)
        refine noShSystem_bindB _ _
          (noShSystem_emit _ (fun c h => Effect.noConfusion h)) (fun _ => ?_)
        refine noShSystem_bindB _ _
          (noShSystem_emit _ (fun c h => Effect.noConfusion h)) (fun _ => ?_)
        refine noShSystem_bindB _ _
          (noShSystem_emit _ (fun c h => Effect.noConfusion h)) (fun _ => ?_)
        refine noShSystem_bindB _ _
          (noShSystem_emit _ (fun c h => Effect.noConfusion h)) (fun _ => ?_)
        exact noShSystem_nil
      · exact noShSystem_bindB _ _ noShSystem_nil (fun _ => noShSystem_nil)

theorem noShSystem_provisionUsers (cmdOk : String → String → Bool)
    (appsdir : String) (users : List UserSpec) (next_id : Nat) :
    NoShSystem (provisionUsers cmdOk appsdir users next_id).2 := by
  induction users generalizing next_id with
  | nil => exact noShSystem_nil
  | cons u rest ih =>
    unfold provisionUsers
    simp only [bind_eq_bindB]
    exact noShSystem_bindB _ _ (noShSystem_doUser _ _ _ _) (fun n2 => ih n2)

theorem noShSystem_setupRoot (cmdOk : String → String → Bool) (cwd : String)
    (prof : PlatformProfile) : NoShSystem (setupRoot cmdOk cwd prof).2 := by
  unfold setupRoot
  simp only [bind_eq_bindB]
  refine noShSystem_bindB _ _ (noShSystem_assembleFs _ _ _) (fun _ => ?_)
  refine noShSystem_bindB _ _
    (noShSystem_emit _ (fun c h => Effect.noConfusion h)) (fun _ => ?_)
  refine noShSystem_runC _ _ _ (headO_ne_s ?_)
  repeat apply strHead_append
  rfl

theorem installPackages_fail (cmdOk : String → String → Bool) (d args : String)
    (pkgs : List String) (i : Nat) (hi : i < pkgs.length)
    (hfail : cmdOk d (installCmd args (pkgs.getD i "")) = false)
    (hprev : ∀ j, j < i → cmdOk d (installCmd args (pkgs.getD j "")) = true) :
    installPackages cmdOk d args pkgs =
      (.error (.exited 1),
       (pkgs.take i).flatMap (fun p =>
         [.print ("Installing package " ++ p), .chdir d,
          .system (installCmd args p)]) ++
       [.print ("Installing package " ++ pkgs.getD i ""), .chdir d,
        .system (installCmd args (pkgs.getD i "")),
        .print ("Command " ++ installCmd args (pkgs.getD i "") ++
          " returned with nonzero status")]) := by
  induction pkgs generalizing i with
  | nil => simp at hi
  | cons p rest ih =>
    cases i with
    | zero =>
      have h0 : cmdOk d (installCmd args p) = false := by simpa using hfail
      unfold installPackages
      simp only [bind_eq_bindB, runC_of_false h0, bindB_error, bindB_emit]
      simp
    | succ i =>
      have h0 : cmdOk d (installCmd args p) = true := by
        simpa using hprev 0 (Nat.succ_pos i)
      have hi2 : i < rest.length := by simpa using hi
      have hf2 : cmdOk d (installCmd args (rest.getD i "")) = false := by
        simpa using hfail
      have hp2 : ∀ j, j < i → cmdOk d (installCmd args (rest.getD j "")) = true := by
        intro j hj
        simpa using hprev (j + 1) (by omega)
      have hrec := ih i hi2 hf2 hp2
      unfold installPackages
      simp only [bind_eq_bindB, runC_of_true h0, bindB_ok, bindB_emit]
      rw [hrec]
      simp [List.getD_cons_succ, List.take_succ_cons]

/-- C6: with the setup stage succeeded, the first failing package install
(the `i`-th, all earlier ones succeeding) terminates the run with exit
status 1; the trace shows exactly one `opkg install` invocation per package
up to and including the failing one, in `package_list` order — packages
after it are never attempted — and the image-construction script is never
invoked. -/
theorem c6_package_failfast (cmdOk : String → String → Bool) (cwd : String)
    (recipe : BuildRecipe) (prof : PlatformProfile) (i : Nat)
    (hplat : resolvePlatform (imagescriptdir cwd) recipe.platform = some prof)
    (hsetup : (setupRoot cmdOk cwd prof).1 = .ok ())
    (hi : i < recipe.package_list.length)
    (hfail : cmdOk (appsdirOf cwd prof.arch)
      (installCmd (opkgArgsOf cwd prof.arch) (recipe.package_list.getD i "")) = false)
    (hprev : ∀ j, j < i → cmdOk (appsdirOf cwd prof.arch)
      (installCmd (opkgArgsOf cwd prof.arch) (recipe.package_list.getD j "")) = true) :
    (mainRun cmdOk cwd recipe).1 = .error (.exited 1) ∧
    (mainRun cmdOk cwd recipe).2 =
      .readFile "build_request.json" ::
      ((setupRoot cmdOk cwd prof).2 ++
       ((recipe.package_list.take i).flatMap (fun p =>
          [.print ("Installing package " ++ p), .chdir (appsdirOf cwd prof.arch),
           .system (installCmd (opkgArgsOf cwd prof.arch) p)]) ++
        [.print ("Installing package " ++ recipe.package_list.getD i ""),
         .chdir (appsdirOf cwd prof.arch),
         .system (installCmd (opkgArgsOf cwd prof.arch)
           (recipe.package_list.getD i "")),
         .print ("Command " ++ installCmd (opkgArgsOf cwd prof.arch)
           (recipe.package_list.getD i "") ++ " returned with nonzero status")])) ∧
    Effect.system ("sh " ++ sq1 prof.image_script) ∉ (mainRun cmdOk cwd recipe).2 := by
  have hinst := installPackages_fail cmdOk (appsdirOf cwd prof.arch)
    (opkgArgsOf cwd prof.arch) recipe.package_list i hi hfail hprev
  have h1 : (installPackages cmdOk (appsdirOf cwd prof.arch)
      (opkgArgsOf cwd prof.arch) recipe.package_list).1 = .error (.exited 1) := by
    rw [hinst]
  have hpreQ : preImage cmdOk cwd prof recipe =
      (.error (.exited 1),
       (setupRoot cmdOk cwd prof).2 ++
         (installPackages cmdOk (appsdirOf cwd prof.arch)
           (opkgArgsOf cwd prof.arch) recipe.package_list).2) := by
    rw [preImage_def]
    simp only [bindB_of_fst_ok hsetup, bindB_of_fst_error h1]
  have h2 : (preImage cmdOk cwd prof recipe).1 = .error (.exited 1) := by
    rw [hpreQ]
  have hmain : mainRun cmdOk cwd recipe =
      (.error (.exited 1),
       .readFile "build_request.json" ::
         ((setupRoot cmdOk cwd prof).2 ++
          (installPackages cmdOk (appsdirOf cwd prof.arch)
            (opkgArgsOf cwd prof.arch) recipe.package_list).2)) := by
    rw [mainRun_known cmdOk cwd recipe prof hplat, bindB_emit]
    simp only [bindB_of_fst_error h2]
    rw [hpreQ]
  refine ⟨by rw [hmain], ?_, ?_⟩
  · rw [hmain, hinst]
  · rw [hmain]
    intro hmem
    have hhead : ("sh " ++ sq1 prof.image_script).data.head? = some 's' :=
      strHead_append _ _ _ rfl
    rcases List.mem_cons.1 hmem with h | h
    · exact Effect.noConfusion h
    · rcases List.mem_append.1 h with h | h
      · exact noShSystem_setupRoot cmdOk cwd prof _ h hhead
      · exact noShSystem_installPackages cmdOk (appsdirOf cwd prof.arch)
          (opkgArgsOf cwd prof.arch) recipe.package_list _ h hhead

/-- Witness for C6: with only the install of package `"two"` failing, the
three-package PC run exits with status 1, never attempts package
`"three"`, and never invokes the PC image script. -/
theorem c6_package_failfast_witness :
    (mainRun failTwo cwd0 pkgFailRecipe).1 = .error (.exited 1) ∧
    Effect.system ("sh " ++ sq1 pcProf.image_script) ∉
      (mainRun failTwo cwd0 pkgFailRecipe).2 ∧
    Effect.system (installCmd (opkgArgsOf cwd0 "x86") "three") ∉
      (mainRun failTwo cwd0 pkgFailRecipe).2 := by
  have h := c6_package_failfast failTwo cwd0 pkgFailRecipe pcProf 1
    (by decide) (by decide) (by decide) (by decide)
    (by intro j hj; have hj0 : j = 0 := by omega
        subst hj0; decide)
  exact ⟨h.1, h.2.2, by decide⟩

/-! ## C10: the shell-quoted username is what reaches the `.ssh` path -/

theorem strData_append (a b : String) : (a ++ b).data = a.data ++ b.data := by
  cases a; cases b; rfl

theorem strLen_append (a b : String) :
    (a ++ b).data.length = a.data.length + b.data.length := by
  rw [strData_append, List.length_append]

theorem escQuote_length_ge (l : List Char) : l.length ≤ (escQuote l).length := by
  induction l with
  | nil => simp [escQuote]
  | cons c rest ih =>
    unfold escQuote
    by_cases h : c = sqc <;> simp [h] <;> omega

theorem quote_unsafe_form (s : String)
    (h : s.data.any (fun c => !isShellSafe c) = true) :
    quote s = sq ++ String.mk (escQuote s.data) ++ sq := by
  have h1 : ¬ s.data = [] := by
    intro hnil
    rw [hnil] at h
    simp at h
  have h2 : s.data.all isShellSafe = false := by
    rw [List.any_eq_true] at h
    obtain ⟨c, hc, hcs⟩ := h
    rw [Bool.eq_false_iff]
    intro hall
    rw [List.all_eq_true] at hall
    have h3 := hall c hc
    rw [h3] at hcs
    simp at hcs
  unfold quote
  rw [if_neg h1, if_neg (by simp [h2])]

theorem quote_unsafe_data (s : String)
    (h : s.data.any (fun c => !isShellSafe c) = true) :
    (quote s).data = sqc :: (escQuote s.data ++ [sqc]) := by
  rw [quote_unsafe_form s h, strData_append, strData_append]
  simp [sq]

theorem quote_unsafe_length (s : String)
    (h : s.data.any (fun c => !isShellSafe c) = true) :
    (quote s).data.length = (escQuote s.data).length + 2 := by
  rw [quote_unsafe_data s h]
  simp

theorem quote_ne_of_unsafe (s : String)
    (h : s.data.any (fun c => !isShellSafe c) = true) : quote s ≠ s := by
  intro heq
  have hlen : (quote s).data.length = s.data.length := by rw [heq]
  rw [quote_unsafe_length s h] at hlen
  have := escQuote_length_ge s.data
  omega

theorem quote_unsafe_head (s : String)
    (h : s.data.any (fun c => !isShellSafe c) = true) :
    (quote s).data.head? = some sqc := by
  rw [quote_unsafe_data s h]
  rfl

theorem quote_unsafe_getLast (s : String)
    (h : s.data.any (fun c => !isShellSafe c) = true) :
    (quote s).data.getLast? = some sqc := by
  rw [quote_unsafe_data s h,
    show sqc :: (escQuote s.data ++ [sqc]) = (sqc :: escQuote s.data) ++ [sqc] from
      by simp, List.getLast?_concat]

theorem pathJoin_abs (a b : String) (hb : b.data.head? = some '/') :
    pathJoin a b = b := by
  unfold pathJoin
  rw [if_pos hb]

theorem pathJoin_cat (a b : String) (hb : ¬ b.data.head? = some '/')
    (ha : a.data = [] ∨ a.data.getLast? = some '/') : pathJoin a b = a ++ b := by
  unfold pathJoin
  rw [if_neg hb, if_pos ha]

theorem pathJoin_nocat (a b : String) (hb : ¬ b.data.head? = some '/')
    (ha : ¬ (a.data = [] ∨ a.data.getLast? = some '/')) :
    pathJoin a b = a ++ "/" ++ b := by
  unfold pathJoin
  rw [if_neg hb, if_neg ha]

theorem pathJoin_home_facts (a : String) :
    (pathJoin a "home").data ≠ [] ∧
    (pathJoin a "home").data.getLast? = some 'e' := by
  unfold pathJoin
  rw [if_neg (by decide)]
  by_cases h : a.data = [] ∨ a.data.getLast? = some '/'
  · rw [if_pos h]
    refine ⟨?_, ?_⟩
    · rw [strData_append]
      simp
    · rw [strData_append,
        show ("home" : String).data = ['h', 'o', 'm'] ++ ['e'] from rfl,
        ← List.append_assoc, List.getLast?_concat]
  · rw [if_neg h]
    refine ⟨?_, ?_⟩
    · rw [strData_append]
      simp
    · rw [strData_append,
        show ("home" : String).data = ['h', 'o', 'm'] ++ ['e'] from rfl,
        ← List.append_assoc, List.getLast?_concat]

theorem dotssh_quote_length (appsdir s : String)
    (h : s.data.any (fun c => !isShellSafe c) = true) :
    (pathJoin (pathJoin (pathJoin appsdir "home") (quote s)) ".ssh").data.length =
      (pathJoin appsdir "home").data.length + (escQuote s.data).length + 8 := by
  obtain ⟨hA1, hA2⟩ := pathJoin_home_facts appsdir
  have hqh : (quote s).data.head? = some sqc := quote_unsafe_head s h
  have hQ : pathJoin (pathJoin appsdir "home") (quote s) =
      pathJoin appsdir "home" ++ "/" ++ quote s :=
    pathJoin_nocat _ _ (by rw [hqh]; decide)
      (not_or.2 ⟨hA1, by rw [hA2]; decide⟩)
  have hQlast : (pathJoin (pathJoin appsdir "home") (quote s)).data.getLast? =
      some sqc := by
    rw [hQ, strData_append, quote_unsafe_data s h,
      show sqc :: (escQuote s.data ++ [sqc]) = (sqc :: escQuote s.data) ++ [sqc] from
        by simp, ← List.append_assoc, List.getLast?_concat]
  have hQnil : (pathJoin (pathJoin appsdir "home") (quote s)).data ≠ [] := by
    rw [hQ, strData_append, quote_unsafe_data s h]
    simp
  have hR : pathJoin (pathJoin (pathJoin appsdir "home") (quote s)) ".ssh" =
      pathJoin (pathJoin appsdir "home") (quote s) ++ "/" ++ ".ssh" :=
    pathJoin_nocat _ _ (by decide) (not_or.2 ⟨hQnil, by rw [hQlast]; decide⟩)
  have hql : (quote s).data.length = (escQuote s.data).length + 2 :=
    quote_unsafe_length s h
  rw [hR, strLen_append, strLen_append, hQ, strLen_append, strLen_append, hql]
  have h1 : ("/" : String).data.length = 1 := rfl
  have h2 : (".ssh" : String).data.length = 4 := rfl
  omega

theorem dotssh_raw_length_le (appsdir s : String) :
    (pathJoin (pathJoin (pathJoin appsdir "home") s) ".ssh").data.length ≤
      (pathJoin appsdir "home").data.length + s.data.length + 6 := by
  obtain ⟨hA1, hA2⟩ := pathJoin_home_facts appsdir
  have hds : (".ssh" : String).data.length = 4 := rfl
  have hsl : ("/" : String).data.length = 1 := rfl
  by_cases h1 : s.data.head? = some '/'
  · rw [pathJoin_abs _ _ h1]
    by_cases h2 : s.data = [] ∨ s.data.getLast? = some '/'
    · rw [pathJoin_cat _ _ (by decide) h2, strLen_append]
      omega
    · rw [pathJoin_nocat _ _ (by decide) h2, strLen_append, strLen_append]
      omega
  · rw [pathJoin_nocat _ _ h1 (not_or.2 ⟨hA1, by rw [hA2]; decide⟩)]
    by_cases h2 : (pathJoin appsdir "home" ++ "/" ++ s).data = [] ∨
        (pathJoin appsdir "home" ++ "/" ++ s).data.getLast? = some '/'
    · rw [pathJoin_cat _ _ (by decide) h2, strLen_append, strLen_append,
        strLen_append]
      omega
    · rw [pathJoin_nocat _ _ (by decide) h2, strLen_append, strLen_append,
        strLen_append, strLen_append]
      omega

theorem dotssh_path_ne (appsdir s : String)
    (h : s.data.any (fun c => !isShellSafe c) = true) :
    pathJoin (pathJoin (pathJoin appsdir "home") (quote s)) ".ssh" ≠
      pathJoin (pathJoin (pathJoin appsdir "home") s) ".ssh" := by
  intro heq
  have h1 := dotssh_quote_length appsdir s h
  have h2 := dotssh_raw_length_le appsdir s
  have h3 := escQuote_length_ge s.data
  have h4 : (pathJoin (pathJoin (pathJoin appsdir "home") (quote s)) ".ssh").data.length =
      (pathJoin (pathJoin (pathJoin appsdir "home") s) ".ssh").data.length := by
    rw [heq]
  omega

theorem mem_bindB_of_ok {α β : Type} {m : BuildM α} {f : α → BuildM β} {a : α}
    {e : Effect} (h : m.1 = .ok a) (he : e ∈ (f a).2) : e ∈ (bindB m f).2 := by
  rw [bindB_of_fst_ok h]
  exact List.mem_append_right _ he

theorem doUser_mkdir_quoted (cmdOk : String → String → Bool) (appsdir : String)
    (u : UserSpec) (next_id : Nat) (g p ks : List Nat)
    (hall : ∀ d c, cmdOk d c = true)
    (hg : b64decode u.gecos = some g) (hp : b64decode u.password = some p)
    (hk : b64decode u.ssh_authorized_keys = some ks) (hne : ks ≠ [])
    (hroot : quote u.username ≠ "root") :
    Effect.mkdir (pathJoin (pathJoin (pathJoin appsdir "home") (quote u.username))
      ".ssh") ∈ (doUser cmdOk appsdir u next_id).2 := by
  have hgm : b64decodeM u.gecos = pureB g := by simp [b64decodeM, hg]
  have hpm : b64decodeM u.password = pureB p := by simp [b64decodeM, hp]
  have hkm : b64decodeM u.ssh_authorized_keys = pureB ks := by simp [b64decodeM, hk]
  have hlen : ks.length ≠ 0 := by simpa using hne
  unfold doUser
  simp only [bind_eq_bindB, pure_eq_pureB, hgm, hpm, hkm, bindB_pureB]
  rw [if_neg hroot]
  have hok : ∀ c0 : String, (runC cmdOk appsdir c0).1 = Except.ok () := fun c0 => by
    rw [runC_of_true (hall appsdir c0)]
  refine mem_bindB_of_ok (hok _) ?_
  rw [if_pos hlen]
  simp only [bindB_emit]
  exact List.mem_cons_self _ _

/-- C10: the username is shell-quoted on entry to the user loop and the
quoted form is what the `.ssh` path is built from: with valid base64 fields
and non-empty decoded keys, the trace creates
`<apps>/home/<quoted username>/.ssh`; for a username containing any
shell-unsafe character (a space, for example) the quoted form differs from
the raw username, and the created path differs from
`<apps>/home/<username>/.ssh`. -/
theorem c10_quoted_username_in_path (cmdOk : String → String → Bool)
    (appsdir : String) (u : UserSpec) (next_id : Nat) (g p ks : List Nat)
    (hall : ∀ d c, cmdOk d c = true)
    (hg : b64decode u.gecos = some g) (hp : b64decode u.password = some p)
    (hk : b64decode u.ssh_authorized_keys = some ks) (hne : ks ≠ [])
    (hbad : u.username.data.any (fun c => !isShellSafe c) = true) :
    Effect.mkdir (pathJoin (pathJoin (pathJoin appsdir "home") (quote u.username))
      ".ssh") ∈ (doUser cmdOk appsdir u next_id).2 ∧
    quote u.username ≠ u.username ∧
    pathJoin (pathJoin (pathJoin appsdir "home") (quote u.username)) ".ssh" ≠
      pathJoin (pathJoin (pathJoin appsdir "home") u.username) ".ssh" := by
  have hroot : quote u.username ≠ "root" := by
    intro hq
    have hh := quote_unsafe_head u.username hbad
    rw [hq] at hh
    exact absurd hh (by decide)
  exact ⟨doUser_mkdir_quoted cmdOk appsdir u next_id g p ks hall hg hp hk hne hroot,
    quote_ne_of_unsafe u.username hbad,
    dotssh_path_ne appsdir u.username hbad⟩

/-- Witness for C10 at the username `"a b"` (a space is shell-unsafe). -/
theorem c10_quoted_username_in_path_witness :
    Effect.mkdir (pathJoin (pathJoin (pathJoin "/apps" "home") (quote "a b"))
      ".ssh") ∈ (doUser allOk "/apps" spaceUser 1000).2 ∧
    quote "a b" ≠ "a b" ∧
    pathJoin (pathJoin (pathJoin "/apps" "home") (quote "a b")) ".ssh" ≠
      pathJoin (pathJoin (pathJoin "/apps" "home") "a b") ".ssh" :=
  c10_quoted_username_in_path allOk "/apps" spaceUser 1000 [] [] [65, 66, 67]
    (fun _ _ => rfl) (by decide) (by decide) (by decide) (by decide) (by decide)

end OsBuilder
